import Mathlib

/-!
Verification of the treex module-tree framework (repository jonringer/treex).

The repository ships the package entry point `treex/__init__.py` and two
example training scripts (`examples/cnn.py`, `examples/cnn_model.py`).
The framework classes re-exported by the entry point (`Module`, `Optimizer`,
`LossesAndMetrics`, `KeySeq`) are specified in spec.md; their behaviour is
modelled here from the spec, while the example step functions (`loss_fn`,
`train_step`, `test_step`, `init_step`, `reset_step`) are embedded from
`examples/cnn.py` directly.

Leaf payloads are modelled as rationals (the spec treats leaf values as
opaque scalars/tensors); batches are lists of rationals.
-/

namespace Treex

/-- Modelled from the spec: the closed taxonomy of leaf roles
(`treex/types.py` is not under src/; spec section 3, LeafKind). -/
inductive LeafKind where
  | parameter
  | batchStat
  | rng
  | cache
  | metricState
  | optState
  | lossLog
  | metricLog
  | state
deriving DecidableEq

/-- Modelled from the spec: the error taxonomy of spec section 7
(ShapeError, StructureError, StateError). -/
inductive TxError where
  | shapeError
  | structureError
  | stateError
deriving DecidableEq

/-- Modelled from the spec: a leaf slot of a Module tree: a name, a LeafKind,
and a value which is either present or the explicit absent placeholder
(`none`), spec section 3. -/
structure Leaf where
  name : String
  kind : LeafKind
  value : Option ℚ
deriving DecidableEq

/-- The shape of a leaf slot: its name and kind, with the value erased. -/
structure LeafDef where
  name : String
  kind : LeafKind
deriving DecidableEq

mutual
/-- Modelled from the spec: `treex/module.py` is not under src/. A Module is
a tree node owning named typed leaves, named sub-Modules, a `training` mode
flag, an `initialized` flag, and a static hyperparameter `requiresRng`
(true for mode-sensitive layers needing randomness, i.e. Dropout),
spec section 3. -/
inductive Module where
  | mk (training : Bool) (initialized : Bool) (requiresRng : Bool)
       (leaves : List Leaf) (subs : Subs)
/-- The named sub-Module list of a Module node. -/
inductive Subs where
  | nil
  | cons (name : String) (m : Module) (rest : Subs)
end

mutual
/-- The tree shape (treedef) of a Module: leaf names and kinds plus
sub-Module structure, with leaf values and mode flags erased. -/
inductive TreeDef where
  | mk (leaves : List LeafDef) (subs : SubsDef)
/-- The shape of a sub-Module list. -/
inductive SubsDef where
  | nil
  | cons (name : String) (d : TreeDef) (rest : SubsDef)
end

mutual
def beqTreeDef : TreeDef → TreeDef → Bool
  | .mk ls subs, .mk ls' subs' => ls = ls' && beqSubsDef subs subs'
def beqSubsDef : SubsDef → SubsDef → Bool
  | .nil, .nil => true
  | .cons n d rest, .cons n' d' rest' =>
      n = n' && beqTreeDef d d' && beqSubsDef rest rest'
  | _, _ => false
end

mutual
theorem beqTreeDef_iff : ∀ a b : TreeDef, beqTreeDef a b = true ↔ a = b
  | .mk ls subs, .mk ls' subs' => by
    simp only [beqTreeDef, Bool.and_eq_true, decide_eq_true_eq,
      beqSubsDef_iff, TreeDef.mk.injEq]
theorem beqSubsDef_iff : ∀ a b : SubsDef, beqSubsDef a b = true ↔ a = b
  | .nil, .nil => by simp [beqSubsDef]
  | .nil, .cons _ _ _ => by simp [beqSubsDef]
  | .cons _ _ _, .nil => by simp [beqSubsDef]
  | .cons n d rest, .cons n' d' rest' => by
    simp only [beqSubsDef, Bool.and_eq_true, decide_eq_true_eq,
      beqTreeDef_iff, beqSubsDef_iff, SubsDef.cons.injEq]
    tauto
end

instance : DecidableEq TreeDef := fun a b =>
  decidable_of_iff (beqTreeDef a b = true) (beqTreeDef_iff a b)

instance : DecidableEq SubsDef := fun a b =>
  decidable_of_iff (beqSubsDef a b = true) (beqSubsDef_iff a b)

/-- The shape of one leaf slot. -/
def Leaf.toDef (l : Leaf) : LeafDef := ⟨l.name, l.kind⟩

mutual
/-- The treedef of a Module (spec section 3: set of leaf names, their kinds,
and sub-Module structure; leaf values, including absent placeholders, and
mode flags do not take part). -/
def Module.treedef : Module → TreeDef
  | .mk _ _ _ ls subs => .mk (ls.map Leaf.toDef) subs.treedef
/-- The treedef of a sub-Module list. -/
def Subs.treedef : Subs → SubsDef
  | .nil => .nil
  | .cons n m rest => .cons n m.treedef rest.treedef
end

/-- The `training` flag of the root node. -/
def Module.training : Module → Bool
  | .mk t _ _ _ _ => t

/-- The `initialized` flag of the root node. -/
def Module.isInit : Module → Bool
  | .mk _ i _ _ _ => i

mutual
/-- Modelled from the spec: `train()`/`eval()` set the mode flag recursively
through all sub-Modules (spec section 4.1), returning a new Module. -/
def Module.setTraining (b : Bool) : Module → Module
  | .mk _ i r ls subs => .mk b i r ls (subs.setTraining b)
/-- Recursive flag update over a sub-Module list. -/
def Subs.setTraining (b : Bool) : Subs → Subs
  | .nil => .nil
  | .cons n m rest => .cons n (m.setTraining b) (rest.setTraining b)
end

/-- `train() -> Module` of spec section 4.1. -/
def Module.train (m : Module) : Module := m.setTraining true

/-- Module.eval of spec section 4.1: mode flag false recursively. -/
def Module.evalMode (m : Module) : Module := m.setTraining false

/-- Projection of a single leaf slot: a Parameter leaf keeps its value, any
other slot is replaced by the explicit absent placeholder, never deleted. -/
def Leaf.param (l : Leaf) : Leaf :=
  if l.kind = LeafKind.parameter then l else { l with value := none }

mutual
/-- Modelled from the spec: `parameters()` projects the tree to only
Parameter-kind leaves, preserving structure and replacing non-matching
leaves with the absent placeholder (spec section 4.1). -/
def Module.parameters : Module → Module
  | .mk t i r ls subs => .mk t i r (ls.map Leaf.param) subs.parameters
/-- Parameter projection over a sub-Module list. -/
def Subs.parameters : Subs → Subs
  | .nil => .nil
  | .cons n m rest => .cons n m.parameters rest.parameters
end

/-- Merging one leaf slot: take `other`'s value if present (not the absent
placeholder), else keep the receiver's value (spec section 4.1). -/
def Leaf.mergeWith (a b : Leaf) : Leaf :=
  { a with value := match b.value with
                    | some v => some v
                    | none => a.value }

/-- Leafwise merge of two leaf lists; fails with StructureError when the
slots do not align by name and kind. -/
def mergeLeaves : List Leaf → List Leaf → Except TxError (List Leaf)
  | [], [] => .ok []
  | a :: as, b :: bs =>
      if a.name = b.name ∧ a.kind = b.kind then
        match mergeLeaves as bs with
        | .error e => .error e
        | .ok rest => .ok (a.mergeWith b :: rest)
      else .error .structureError
  | _, _ => .error .structureError

mutual
/-- Modelled from the spec: `merge(other)` takes, for every leaf slot,
`other`'s value if present, else keeps the receiver's value; fails with
StructureError if `other`'s tree shape is incompatible (spec section 4.1).
Mode flags stay the receiver's. -/
def Module.merge : Module → Module → Except TxError Module
  | .mk t i r ls subs, .mk _ _ _ ls' subs' =>
      match mergeLeaves ls ls' with
      | .error e => .error e
      | .ok mls =>
        match Subs.merge subs subs' with
        | .error e => .error e
        | .ok msubs => .ok (.mk t i r mls msubs)
/-- Merge over sub-Module lists; fails with StructureError when the
sub-Module names or arity differ. -/
def Subs.merge : Subs → Subs → Except TxError Subs
  | .nil, .nil => .ok .nil
  | .cons n m rest, .cons n' m' rest' =>
      if n = n' then
        match Module.merge m m' with
        | .error e => .error e
        | .ok mm =>
          match Subs.merge rest rest' with
          | .error e => .error e
          | .ok mrest => .ok (.cons n mm mrest)
      else .error .structureError
  | _, _ => .error .structureError
end

mutual
/-- Whether every node of the tree carries the `initialized` flag. -/
def Module.allInit : Module → Bool
  | .mk _ i _ _ subs => i && subs.allInit
/-- Whether every node of a sub-Module list is initialized. -/
def Subs.allInit : Subs → Bool
  | .nil => true
  | .cons _ m rest => m.allInit && rest.allInit
end

mutual
/-- Whether some node of the tree is a mode-sensitive layer that needs
randomness (Dropout) while its training flag is set: exactly the condition
under which apply with an absent key must fail (spec section 4.1). -/
def Module.needsKey : Module → Bool
  | .mk t _ r _ subs => (r && t) || subs.needsKey
/-- needsKey over a sub-Module list. -/
def Subs.needsKey : Subs → Bool
  | .nil => false
  | .cons _ m rest => m.needsKey || rest.needsKey
end

/-- Modelled from the spec: the deterministic leaf value that `init` assigns
to a slot, a function only of the seed, the sample input, and the slot's
name (spec section 4.1: init is deterministic given the seed). -/
def initVal (seed : ℕ) (x : List ℚ) (nm : String) : ℚ :=
  (seed : ℚ) + nm.length + x.length

/-- Initialization of one leaf slot: the value is freshly derived, the old
value is ignored. -/
def Leaf.initWith (seed : ℕ) (x : List ℚ) (l : Leaf) : Leaf :=
  { l with value := some (initVal seed x l.name) }

mutual
/-- Modelled from the spec: `init(seed, sample_input)` populates all leaves
with values derived deterministically from the seed and marks every node
initialized, returning a new Module (spec sections 3 and 4.1). Leaf values
are scalars in this embedding, so the ShapeError branch for structurally
incompatible sample inputs does not arise. -/
def Module.init (seed : ℕ) (x : List ℚ) : Module → Module
  | .mk t _ r ls subs =>
      .mk t true r (ls.map (Leaf.initWith seed x)) (subs.init seed x)
/-- Initialization over a sub-Module list. -/
def Subs.init (seed : ℕ) (x : List ℚ) : Subs → Subs
  | .nil => .nil
  | .cons n m rest => .cons n (m.init seed x) (rest.init seed x)
end

/-- The sum of the present Parameter leaf values of a node: the node's local
linear contribution to the forward pass in this scalar embedding. -/
def paramSum (ls : List Leaf) : ℚ :=
  (ls.filterMap (fun l =>
    if l.kind = LeafKind.parameter then l.value else none)).sum

/-- State update of one leaf slot during a forward pass: BatchStat leaves
record a running statistic of the node's output (spec section 4.1: forward
passes may mutate non-trainable state); other leaves are unchanged. -/
def Leaf.updStat (s : ℚ) (l : Leaf) : Leaf :=
  if l.kind = LeafKind.batchStat then { l with value := some s } else l

mutual
/-- Modelled from the spec: `apply(key_or_none, x)` runs the forward
computation, threading the batch through the sub-Modules in order
(Sequential composition, spec section 4.1) after the node's own local
transformation; updates BatchStat leaves; fails with StateError when the
node is not initialized (apply before init) or when it needs randomness
while training with no key supplied. -/
def Module.applyGo (key : Option ℕ) (x : List ℚ) :
    Module → Except TxError (List ℚ × Module)
  | .mk t i r ls subs =>
      if ¬ i then .error .stateError
      else if r && t && key.isNone then .error .stateError
      else
        match Subs.applyGo key (x.map (fun v => v + paramSum ls)) subs with
        | .error e => .error e
        | .ok (y, subs') =>
            .ok (y, .mk t i r (ls.map (Leaf.updStat y.sum)) subs')
/-- Sequential threading of the forward pass: the output of sub-Module i is
the input of sub-Module i+1. -/
def Subs.applyGo (key : Option ℕ) (x : List ℚ) :
    Subs → Except TxError (List ℚ × Subs)
  | .nil => .ok (x, .nil)
  | .cons n m rest =>
      match Module.applyGo key x m with
      | .error e => .error e
      | .ok (y, m') =>
        match Subs.applyGo key y rest with
        | .error e => .error e
        | .ok (z, rest') => .ok (z, .cons n m' rest')
end

/-- Module.apply of spec section 4.1: forward pass returning the output and
the updated Module. -/
def Module.apply (m : Module) (key : Option ℕ) (x : List ℚ) :
    Except TxError (List ℚ × Module) :=
  Module.applyGo key x m

/-- Modelled from the spec: the Optimizer wrapper (`treex/optimizer.py` is
not under src/). It records the treedef of the params given to `init` (the
tree-shape bridging contract of spec section 4.2), a step counter as its
OptState bookkeeping, and wraps plain gradient descent with learning rate
`lr` as the gradient-transformation spec (the numeric rule is delegated and
out of the spec's core). `pdef = none` means `init` has not run. -/
structure Optimizer where
  lr : ℚ
  pdef : Option TreeDef
  stepCount : ℕ
deriving DecidableEq

/-- Optimizer.init of spec section 4.2: state allocated to mirror the params
tree shape, recorded as the params treedef plus zeroed bookkeeping. -/
def Optimizer.init (o : Optimizer) (params : Module) : Optimizer :=
  { o with pdef := some params.treedef, stepCount := 0 }

/-- Gradient-descent update of one leaf slot: present Parameter values move
against the gradient; absent slots are kept. -/
def Leaf.sgdWith (lr : ℚ) (p g : Leaf) : Leaf :=
  { p with value := match p.value, g.value with
                    | some pv, some gv => some (pv - lr * gv)
                    | pv, _ => pv }

/-- Leafwise gradient application; fails with StructureError when the slots
do not align by name and kind. -/
def sgdLeaves (lr : ℚ) : List Leaf → List Leaf → Except TxError (List Leaf)
  | [], [] => .ok []
  | p :: ps, g :: gs =>
      if p.name = g.name ∧ p.kind = g.kind then
        match sgdLeaves lr ps gs with
        | .error e => .error e
        | .ok rest => .ok (Leaf.sgdWith lr p g :: rest)
      else .error .structureError
  | _, _ => .error .structureError

mutual
/-- The wrapped gradient transformation applied over the params tree:
new param = param - lr * grad on present leaves; fails with StructureError
when the trees do not align. -/
def Module.sgd (lr : ℚ) : Module → Module → Except TxError Module
  | .mk t i r ls subs, .mk _ _ _ ls' subs' =>
      match sgdLeaves lr ls ls' with
      | .error e => .error e
      | .ok nls =>
        match Subs.sgd lr subs subs' with
        | .error e => .error e
        | .ok nsubs => .ok (.mk t i r nls nsubs)
/-- Gradient application over sub-Module lists. -/
def Subs.sgd (lr : ℚ) : Subs → Subs → Except TxError Subs
  | .nil, .nil => .ok .nil
  | .cons n m rest, .cons n' m' rest' =>
      if n = n' then
        match Module.sgd lr m m' with
        | .error e => .error e
        | .ok nm =>
          match Subs.sgd lr rest rest' with
          | .error e => .error e
          | .ok nrest => .ok (.cons n nm nrest)
      else .error .structureError
  | _, _ => .error .structureError
end

/-- Optimizer.update of spec section 4.2: `grads` must have the same tree
shape as the params used at `init`, else StructureError; before `init`,
StateError (state not yet present). Returns the new params and the new
Optimizer with advanced bookkeeping; `params` and `grads` are not
mutated. -/
def Optimizer.update (o : Optimizer) (grads params : Module) :
    Except TxError (Module × Optimizer) :=
  match o.pdef with
  | none => .error .stateError
  | some pd =>
      if grads.treedef = pd then do
        let nparams ← Module.sgd o.lr params grads
        .ok (nparams, { o with stepCount := o.stepCount + 1 })
      else .error .structureError

/-- Modelled from the spec: the per-example loss term of the configured
loss (`treex/losses.py` is not under src/); an opaque nonnegative scalar
function of target and prediction. -/
def exampleLoss (t p : ℚ) : ℚ := |t - p|

/-- Modelled from the spec: the LossesAndMetrics accumulation engine
(`treex/metrics.py` is not under src/). Running sufficient statistics:
total per-example loss sum and example count for the mean-loss reducer,
and a correct-prediction count for the accuracy metric (spec section 4.3). -/
structure LossesAndMetrics where
  lossSum : ℚ
  count : ℕ
  correct : ℕ
deriving DecidableEq

/-- The flat mapping of metric name to scalar produced by `compute()`. -/
structure Logs where
  loss : ℚ
  accuracy : ℚ
deriving DecidableEq

/-- LossesAndMetrics.reset of spec section 4.3: every accumulator's running
statistics set to the identity (zero sum, zero count), same shape. -/
def LossesAndMetrics.reset (_ : LossesAndMetrics) : LossesAndMetrics :=
  { lossSum := 0, count := 0, correct := 0 }

/-- LossesAndMetrics.loss_and_update of spec section 4.3: computes the
per-batch scalar loss and combines the previous running statistics with
the current batch's statistics by total-sum/total-count addition. -/
def LossesAndMetrics.lossAndUpdate (lm : LossesAndMetrics)
    (target preds : List ℚ) : ℚ × LossesAndMetrics :=
  let exLosses := List.zipWith exampleLoss target preds
  let n := exLosses.length
  let batchLoss := if n = 0 then 0 else exLosses.sum / n
  (batchLoss,
   { lossSum := lm.lossSum + exLosses.sum,
     count := lm.count + n,
     correct := lm.correct +
       (List.zipWith (fun t p => if t = p then (1 : ℕ) else 0)
         target preds).sum })

/-- LossesAndMetrics.compute of spec section 4.3: pure reduction
total sum / total count; when no updates occurred since the last reset the
count is zero and the documented sentinel 0 is returned instead of
dividing. -/
def LossesAndMetrics.compute (lm : LossesAndMetrics) : Logs :=
  if lm.count = 0 then { loss := 0, accuracy := 0 }
  else { loss := lm.lossSum / lm.count,
         accuracy := (lm.correct : ℚ) / lm.count }

/-- Modelled from the spec: KeySeq (`treex/key_seq.py` is not under src/)
owns a single current PRNG key; derivation is abstracted as an injective
affine map with the spec's determinism and key-uniqueness properties
(spec sections 3 and 4.4). -/
structure KeySeq where
  key : ℕ
deriving DecidableEq

/-- The i-th child key deterministically derived from current key k. -/
def deriveKey (k i : ℕ) : ℕ := k + i + 1

/-- KeySeq.split(n) of spec section 4.4: derive n child keys from the
current key and advance the internal state once, never reissuing a
previously issued key. -/
def KeySeq.split (ks : KeySeq) (n : ℕ) : List ℕ × KeySeq :=
  ((List.range n).map (deriveKey ks.key), ⟨ks.key + n + 1⟩)

/-- KeySeq.next of spec section 4.4: one successor key, advancing state. -/
def KeySeq.next (ks : KeySeq) : ℕ × KeySeq :=
  (deriveKey ks.key 0, ⟨ks.key + 2⟩)

/-- Modelled from the spec: the reverse-mode differentiation substrate is
out of scope (spec section 1 non-goals); the gradient of the loss with
respect to the params tree is abstracted as a deterministic tree-shape
preserving map over the params projection. -/
def Leaf.gradWith (loss : ℚ) (l : Leaf) : Leaf :=
  if l.kind = LeafKind.parameter
  then { l with value := l.value.map (fun v => loss * v) }
  else l

mutual
/-- The gradient tree of the loss over a params tree: same treedef, values
produced by the differentiation substrate model. -/
def Module.gradTree (loss : ℚ) : Module → Module
  | .mk t i r ls subs =>
      .mk t i r (ls.map (Leaf.gradWith loss)) (subs.gradTree loss)
/-- Gradient tree over a sub-Module list. -/
def Subs.gradTree (loss : ℚ) : Subs → Subs
  | .nil => .nil
  | .cons n m rest => .cons n (m.gradTree loss) (rest.gradTree loss)
end

/-- Embedded from src/examples/cnn.py `loss_fn`: merge the params into the
model when given, run the forward pass, update the losses-and-metrics
accumulators, and return the scalar loss with the updated trees. -/
def loss_fn (params : Option Module) (key : Option ℕ) (model : Module)
    (lm : LossesAndMetrics) (x y : List ℚ) :
    Except TxError (ℚ × Module × LossesAndMetrics) := do
  let model ← match params with
              | some p => model.merge p
              | none => .ok model
  let (preds, model) ← model.apply key x
  let (loss, lm) := lm.lossAndUpdate y preds
  .ok (loss, model, lm)

/-- Embedded from src/examples/cnn.py `train_step`: project the params,
take the gradient of loss_fn with auxiliary updated trees, feed gradients
and params to the optimizer, and merge the new params back. -/
def train_step (key : Option ℕ) (model : Module) (opt : Optimizer)
    (lm : LossesAndMetrics) (x y : List ℚ) :
    Except TxError (Module × Optimizer × LossesAndMetrics) := do
  let params := model.parameters
  let (loss, model, lm) ← loss_fn (some params) key model lm x y
  let grads := params.gradTree loss
  let (nparams, opt) ← opt.update grads params
  let model ← model.merge nparams
  .ok (model, opt, lm)

/-- Embedded from src/examples/cnn.py `test_step`: run loss_fn with no
params and no key, keeping only the updated accumulators. -/
def test_step (model : Module) (lm : LossesAndMetrics) (x y : List ℚ) :
    Except TxError LossesAndMetrics := do
  let (_, _, lm) ← loss_fn none none model lm x y
  .ok lm

/-- Embedded from src/examples/cnn.py `init_step`: initialize the model and
then the optimizer on the model's parameter projection. -/
def init_step (model : Module) (opt : Optimizer) (seed : ℕ)
    (inputs : List ℚ) : Module × Optimizer :=
  let model := model.init seed inputs
  (model, opt.init model.parameters)

/-- Embedded from src/examples/cnn.py `reset_step`. -/
def reset_step (lm : LossesAndMetrics) : LossesAndMetrics := lm.reset

/-- The caller-visible state a training step acts on: the model, optimizer
and accumulator trees rebound by src/examples/cnn.py `main`. -/
structure TrainState where
  model : Module
  opt : Optimizer
  lm : LossesAndMetrics

/-- One driver iteration of the training loop: on success the caller
rebinds the returned trees, on a typed error the caller's values are
untouched (immutable-value design, spec section 7). -/
def runTrainStep (s : TrainState) (key : Option ℕ) (x y : List ℚ) :
    TrainState :=
  match train_step key s.model s.opt s.lm x y with
  | .ok (m, o, l) => ⟨m, o, l⟩
  | .error _ => s

/-- One driver iteration of the test loop. -/
def runTestStep (s : TrainState) (x y : List ℚ) : TrainState :=
  match test_step s.model s.lm x y with
  | .ok l => ⟨s.model, s.opt, l⟩
  | .error _ => s

theorem Leaf.toDef_param (l : Leaf) : (Leaf.param l).toDef = l.toDef := by
  unfold Leaf.param Leaf.toDef
  split <;> rfl

theorem Leaf.toDef_updStat (s : ℚ) (l : Leaf) :
    (Leaf.updStat s l).toDef = l.toDef := by
  unfold Leaf.updStat Leaf.toDef
  split <;> rfl

theorem Leaf.toDef_initWith (seed : ℕ) (x : List ℚ) (l : Leaf) :
    (Leaf.initWith seed x l).toDef = l.toDef := rfl

theorem Leaf.toDef_gradWith (c : ℚ) (l : Leaf) :
    (Leaf.gradWith c l).toDef = l.toDef := by
  unfold Leaf.gradWith Leaf.toDef
  split <;> rfl

theorem Leaf.toDef_mergeWith (a b : Leaf) :
    (Leaf.mergeWith a b).toDef = a.toDef := rfl

theorem Leaf.toDef_sgdWith (lr : ℚ) (p g : Leaf) :
    (Leaf.sgdWith lr p g).toDef = p.toDef := rfl

mutual
theorem Module.treedef_setTraining (b : Bool) :
    ∀ m : Module, (m.setTraining b).treedef = m.treedef
  | .mk _ i r ls subs => by
    simp [Module.setTraining, Module.treedef, Subs.setTrainingSubs_treedef b subs]
theorem Subs.setTrainingSubs_treedef (b : Bool) :
    ∀ s : Subs, (s.setTraining b).treedef = s.treedef
  | .nil => rfl
  | .cons n m rest => by
    simp [Subs.setTraining, Subs.treedef, Module.treedef_setTraining b m,
      Subs.setTrainingSubs_treedef b rest]
end

mutual
theorem Module.treedef_parameters :
    ∀ m : Module, m.parameters.treedef = m.treedef
  | .mk t i r ls subs => by
    simp [Module.parameters, Module.treedef, Subs.parametersSubs_treedef subs,
      List.map_map, Function.comp, Leaf.toDef_param]
theorem Subs.parametersSubs_treedef :
    ∀ s : Subs, s.parameters.treedef = s.treedef
  | .nil => rfl
  | .cons n m rest => by
    simp [Subs.parameters, Subs.treedef, Module.treedef_parameters m,
      Subs.parametersSubs_treedef rest]
end

mutual
theorem Module.treedef_init (seed : ℕ) (x : List ℚ) :
    ∀ m : Module, (m.init seed x).treedef = m.treedef
  | .mk t i r ls subs => by
    simp [Module.init, Module.treedef, Subs.initSubs_treedef seed x subs,
      List.map_map, Function.comp, Leaf.toDef_initWith]
theorem Subs.initSubs_treedef (seed : ℕ) (x : List ℚ) :
    ∀ s : Subs, (s.init seed x).treedef = s.treedef
  | .nil => rfl
  | .cons n m rest => by
    simp [Subs.init, Subs.treedef, Module.treedef_init seed x m,
      Subs.initSubs_treedef seed x rest]
end

mutual
theorem Module.treedef_gradTree (c : ℚ) :
    ∀ m : Module, (m.gradTree c).treedef = m.treedef
  | .mk t i r ls subs => by
    simp [Module.gradTree, Module.treedef, Subs.gradTreeSubs_treedef c subs,
      List.map_map, Function.comp, Leaf.toDef_gradWith]
theorem Subs.gradTreeSubs_treedef (c : ℚ) :
    ∀ s : Subs, (s.gradTree c).treedef = s.treedef
  | .nil => rfl
  | .cons n m rest => by
    simp [Subs.gradTree, Subs.treedef, Module.treedef_gradTree c m,
      Subs.gradTreeSubs_treedef c rest]
end

theorem mergeLeaves_toDef :
    ∀ as bs cs, mergeLeaves as bs = .ok cs →
      cs.map Leaf.toDef = as.map Leaf.toDef := by
  intro as
  induction as with
  | nil =>
    intro bs cs h
    cases bs with
    | nil =>
      unfold mergeLeaves at h
      cases h
      rfl
    | cons b bs => exact Except.noConfusion h
  | cons a as ih =>
    intro bs cs h
    cases bs with
    | nil => exact Except.noConfusion h
    | cons b bs =>
      unfold mergeLeaves at h
      split at h
      · split at h
        · exact Except.noConfusion h
        · rename_i rest hrest
          cases h
          simp [List.map_cons, Leaf.toDef_mergeWith, ih bs rest hrest]
      · exact Except.noConfusion h

mutual
theorem Module.merge_treedef :
    ∀ (a b c : Module), Module.merge a b = .ok c → c.treedef = a.treedef
  | .mk t i r ls subs, .mk t' i' r' ls' subs', c => by
    intro h
    unfold Module.merge at h
    split at h
    · exact Except.noConfusion h
    · rename_i mls hls
      split at h
      · exact Except.noConfusion h
      · rename_i msubs hsubs
        cases h
        simp [Module.treedef, mergeLeaves_toDef ls ls' mls hls,
          Subs.mergeSubs_treedef subs subs' msubs hsubs]
theorem Subs.mergeSubs_treedef :
    ∀ (a b c : Subs), Subs.merge a b = .ok c → c.treedef = a.treedef
  | .nil, .nil, c => by
    intro h
    cases h
    rfl
  | .nil, .cons _ _ _, c => by
    intro h
    exact Except.noConfusion h
  | .cons _ _ _, .nil, c => by
    intro h
    exact Except.noConfusion h
  | .cons n m rest, .cons n' m' rest', c => by
    intro h
    unfold Subs.merge at h
    split at h
    · split at h
      · exact Except.noConfusion h
      · rename_i mm hm
        split at h
        · exact Except.noConfusion h
        · rename_i mrest hrest
          cases h
          simp [Subs.treedef, Module.merge_treedef m m' mm hm,
            Subs.mergeSubs_treedef rest rest' mrest hrest]
    · exact Except.noConfusion h
end

theorem Leaf.mergeWith_param : ∀ l : Leaf, l.mergeWith l.param = l
  | ⟨nm, k, v⟩ => by
    unfold Leaf.mergeWith Leaf.param
    by_cases hk : k = LeafKind.parameter <;> cases v <;> simp [hk]

theorem mergeLeaves_param (ls : List Leaf) :
    mergeLeaves ls (ls.map Leaf.param) = .ok ls := by
  induction ls with
  | nil => rfl
  | cons l ls ih =>
    rw [List.map_cons]
    simp only [mergeLeaves]
    have hcond : l.name = l.param.name ∧ l.kind = l.param.kind := by
      unfold Leaf.param
      split <;> simp
    rw [if_pos hcond, ih]
    simp [Leaf.mergeWith_param]

mutual
theorem Module.merge_parameters :
    ∀ m : Module, Module.merge m m.parameters = .ok m
  | .mk t i r ls subs => by
    show Module.merge (.mk t i r ls subs)
      (.mk t i r (ls.map Leaf.param) subs.parameters) = _
    unfold Module.merge
    rw [mergeLeaves_param, Subs.mergeSubs_parameters subs]
theorem Subs.mergeSubs_parameters :
    ∀ s : Subs, Subs.merge s s.parameters = .ok s
  | .nil => rfl
  | .cons n m rest => by
    show Subs.merge (.cons n m rest)
      (.cons n m.parameters rest.parameters) = _
    unfold Subs.merge
    rw [if_pos rfl, Module.merge_parameters m, Subs.mergeSubs_parameters rest]
end

mutual
theorem Module.applyGo_treedef :
    ∀ (m : Module) (k : Option ℕ) (x y : List ℚ) (m' : Module),
      Module.applyGo k x m = .ok (y, m') → m'.treedef = m.treedef
  | .mk t i r ls subs => by
    intro k x y m' h
    unfold Module.applyGo at h
    split at h
    · exact Except.noConfusion h
    · split at h
      · exact Except.noConfusion h
      · split at h
        · exact Except.noConfusion h
        · rename_i z subs' hsubs
          cases h
          simp [Module.treedef, List.map_map, Function.comp, Leaf.toDef_updStat,
            Subs.applyGoSubs_treedef subs k _ _ subs' hsubs]
theorem Subs.applyGoSubs_treedef :
    ∀ (s : Subs) (k : Option ℕ) (x y : List ℚ) (s' : Subs),
      Subs.applyGo k x s = .ok (y, s') → s'.treedef = s.treedef
  | .nil => by
    intro k x y s' h
    cases h
    rfl
  | .cons n m rest => by
    intro k x y s' h
    unfold Subs.applyGo at h
    split at h
    · exact Except.noConfusion h
    · rename_i ym m' hm
      split at h
      · exact Except.noConfusion h
      · rename_i z rest' hrest
        cases h
        simp [Subs.treedef, Module.applyGo_treedef m k x ym m' hm,
          Subs.applyGoSubs_treedef rest k ym _ rest' hrest]
end

mutual
theorem Module.applyGo_error_state :
    ∀ (m : Module) (k : Option ℕ) (x : List ℚ) (e : TxError),
      Module.applyGo k x m = .error e → e = .stateError
  | .mk t i r ls subs => by
    intro k x e h
    unfold Module.applyGo at h
    split at h
    · cases h
      rfl
    · split at h
      · cases h
        rfl
      · split at h
        · rename_i e' hsubs
          cases h
          exact Subs.applyGoSubs_error_state subs k _ e hsubs
        · exact Except.noConfusion h
theorem Subs.applyGoSubs_error_state :
    ∀ (s : Subs) (k : Option ℕ) (x : List ℚ) (e : TxError),
      Subs.applyGo k x s = .error e → e = .stateError
  | .nil => by
    intro k x e h
    exact Except.noConfusion h
  | .cons n m rest => by
    intro k x e h
    unfold Subs.applyGo at h
    split at h
    · rename_i e' hm
      cases h
      exact Module.applyGo_error_state m k x e hm
    · rename_i y m' hm
      split at h
      · rename_i e' hrest
        cases h
        exact Subs.applyGoSubs_error_state rest k y e hrest
      · exact Except.noConfusion h
end

mutual
theorem Module.applyGo_needsKey :
    ∀ (m : Module), m.needsKey = true → ∀ (x : List ℚ) (res : List ℚ × Module),
      Module.applyGo none x m ≠ .ok res
  | .mk t i r ls subs => by
    intro hn x res h
    unfold Module.applyGo at h
    split at h
    · exact Except.noConfusion h
    · split at h
      · exact Except.noConfusion h
      · rename_i hcond
        split at h
        · exact Except.noConfusion h
        · rename_i y subs' hsubs
          have hsub : subs.needsKey = true := by
            unfold Module.needsKey at hn
            simp only [Option.isNone_none, Bool.and_true] at hcond
            simp only [Bool.or_eq_true] at hn
            rcases hn with hn | hn
            · exact absurd hn hcond
            · exact hn
          exact Subs.applyGoSubs_needsKey subs hsub _ _ hsubs
theorem Subs.applyGoSubs_needsKey :
    ∀ (s : Subs), s.needsKey = true → ∀ (x : List ℚ) (res : List ℚ × Subs),
      Subs.applyGo none x s ≠ .ok res
  | .nil => by
    intro hn
    exact absurd hn (by simp [Subs.needsKey])
  | .cons n m rest => by
    intro hn x res h
    unfold Subs.applyGo at h
    split at h
    · exact Except.noConfusion h
    · rename_i y m' hm
      split at h
      · exact Except.noConfusion h
      · rename_i z rest' hrest
        unfold Subs.needsKey at hn
        simp only [Bool.or_eq_true] at hn
        rcases hn with hn | hn
        · exact Module.applyGo_needsKey m hn _ _ hm
        · exact Subs.applyGoSubs_needsKey rest hn _ _ hrest
end

mutual
theorem Module.applyGo_evalMode_ok :
    ∀ (m : Module), m.allInit = true → ∀ x : List ℚ,
      ∃ res, Module.applyGo none x (m.setTraining false) = .ok res
  | .mk t i r ls subs => by
    intro hI x
    unfold Module.allInit at hI
    simp only [Bool.and_eq_true] at hI
    obtain ⟨hi, hs⟩ := hI
    obtain ⟨⟨y, subs'⟩, hok⟩ :=
      Subs.applyGoSubs_evalMode_ok subs hs (x.map (fun v => v + paramSum ls))
    unfold Module.setTraining Module.applyGo
    simp only [hi, hok, Bool.and_false, Bool.false_and, Option.isNone_none,
      not_true, if_false, Bool.false_eq_true, ite_false]
    exact ⟨_, rfl⟩
theorem Subs.applyGoSubs_evalMode_ok :
    ∀ (s : Subs), s.allInit = true → ∀ x : List ℚ,
      ∃ res, Subs.applyGo none x (s.setTraining false) = .ok res
  | .nil => by
    intro _ x
    exact ⟨(x, .nil), rfl⟩
  | .cons n m rest => by
    intro hI x
    unfold Subs.allInit at hI
    simp only [Bool.and_eq_true] at hI
    obtain ⟨hm, hr⟩ := hI
    obtain ⟨⟨y, m'⟩, hok1⟩ := Module.applyGo_evalMode_ok m hm x
    obtain ⟨⟨z, rest'⟩, hok2⟩ := Subs.applyGoSubs_evalMode_ok rest hr y
    unfold Subs.setTraining Subs.applyGo
    simp only [hok1, hok2]
    exact ⟨_, rfl⟩
end

mutual
theorem Module.setTraining_allInit (b : Bool) :
    ∀ m : Module, (m.setTraining b).allInit = m.allInit
  | .mk t i r ls subs => by
    simp [Module.setTraining, Module.allInit, Subs.setTrainingSubs_allInit b subs]
theorem Subs.setTrainingSubs_allInit (b : Bool) :
    ∀ s : Subs, (s.setTraining b).allInit = s.allInit
  | .nil => rfl
  | .cons n m rest => by
    simp [Subs.setTraining, Subs.allInit, Module.setTraining_allInit b m,
      Subs.setTrainingSubs_allInit b rest]
end

theorem Leaf.initWith_idem (seed : ℕ) (x : List ℚ) (l : Leaf) :
    Leaf.initWith seed x (Leaf.initWith seed x l) = Leaf.initWith seed x l :=
  rfl

mutual
theorem Module.init_idem (seed : ℕ) (x : List ℚ) :
    ∀ m : Module, (m.init seed x).init seed x = m.init seed x
  | .mk t i r ls subs => by
    simp [Module.init, Subs.initSubs_idem seed x subs, List.map_map,
      Function.comp, Leaf.initWith_idem]
theorem Subs.initSubs_idem (seed : ℕ) (x : List ℚ) :
    ∀ s : Subs, (s.init seed x).init seed x = s.init seed x
  | .nil => rfl
  | .cons n m rest => by
    simp [Subs.init, Module.init_idem seed x m, Subs.initSubs_idem seed x rest]
end

theorem lossAndUpdate_append (lm : LossesAndMetrics) (t1 p1 t2 p2 : List ℚ)
    (h : t1.length = p1.length) :
    ((lm.lossAndUpdate t1 p1).2.lossAndUpdate t2 p2).2 =
    (lm.lossAndUpdate (t1 ++ t2) (p1 ++ p2)).2 := by
  unfold LossesAndMetrics.lossAndUpdate
  simp only [List.zipWith_append _ _ _ _ _ h, List.sum_append,
    List.length_append]
  simp only [LossesAndMetrics.mk.injEq]
  refine ⟨by ring, by omega, by omega⟩

/-- A sample initialized sub-Module with a Parameter and a BatchStat leaf. -/
def wInner : Module :=
  .mk true true false
    [⟨"w", .parameter, some 1⟩, ⟨"bs", .batchStat, some 0⟩] .nil

/-- A sample initialized two-level Module. -/
def wM : Module :=
  .mk true true false [⟨"w0", .parameter, some 2⟩] (.cons "inner" wInner .nil)

/-- The sub-Module of `wM` after one forward pass on input [1]. -/
def wInnerA : Module :=
  .mk true true false
    [⟨"w", .parameter, some 1⟩, ⟨"bs", .batchStat, some 4⟩] .nil

/-- The Module `wM` after one forward pass on input [1]. -/
def wMA : Module :=
  .mk true true false [⟨"w0", .parameter, some 2⟩] (.cons "inner" wInnerA .nil)

/-- An initialized Module containing a Dropout layer (a node that needs
randomness) in training mode. -/
def wDrop : Module :=
  .mk true true false [⟨"w0", .parameter, some 2⟩]
    (.cons "drop" (.mk true true true [] .nil) .nil)

/-- C1: for every initialized Module M, the tree shape of M, M.train(),
M.eval() and M.parameters() (absent placeholders being no part of the
treedef) is identical, and the merge/apply steps of a training cycle that
succeed return Modules with the same treedef: only leaf values change. -/
theorem c1_tree_shape_invariant (M Mo M1 M2 : Module) (k : Option ℕ)
    (x y : List ℚ)
    (_hI : M.isInit = true)
    (hA : M.apply k x = .ok (y, M1))
    (hM : M.merge Mo = .ok M2) :
    M.train.treedef = M.treedef ∧
    M.evalMode.treedef = M.treedef ∧
    M.parameters.treedef = M.treedef ∧
    M1.treedef = M.treedef ∧
    M2.treedef = M.treedef :=
  ⟨Module.treedef_setTraining true M, Module.treedef_setTraining false M,
   Module.treedef_parameters M,
   Module.applyGo_treedef M k x y M1 hA,
   Module.merge_treedef M Mo M2 hM⟩

/-- Witness for C1 at the concrete Module `wM`. -/
theorem c1_tree_shape_invariant_witness :
    wM.train.treedef = wM.treedef ∧
    wM.evalMode.treedef = wM.treedef ∧
    wM.parameters.treedef = wM.treedef ∧
    wMA.treedef = wM.treedef ∧
    wM.treedef = wM.treedef :=
  c1_tree_shape_invariant wM wM.parameters wMA wM (some 0) [1] [4] rfl
    (by
      simp [wM, wInner, wMA, wInnerA, Module.apply, Module.applyGo,
        Subs.applyGo, paramSum, Leaf.updStat]
      norm_num)
    (Module.merge_parameters wM)

/-- C2: merging back an unmodified parameter projection is the identity:
for an initialized Module M with no intervening training step,
M.merge(M.parameters()) reproduces M exactly (merge takes other's value
for present slots and keeps the receiver's for absent ones). -/
theorem c2_merge_parameters_identity (M : Module) (_hI : M.isInit = true) :
    M.merge M.parameters = .ok M :=
  Module.merge_parameters M

/-- Witness for C2 at the concrete Module `wM`. -/
theorem c2_merge_parameters_identity_witness :
    wM.merge wM.parameters = .ok wM :=
  c2_merge_parameters_identity wM rfl

/-- C3: loss accumulation is partition-invariant: updating with batch B1
then batch B2 and computing equals one update on the concatenation, and on
B1 with per-example loss 1 over 4 examples and B2 with per-example loss 2
over 4 examples both orders of computation give (1*4+2*4)/8 = 3/2. -/
theorem c3_accumulation_partition_invariant (lm : LossesAndMetrics)
    (t1 p1 t2 p2 : List ℚ) (h : t1.length = p1.length) :
    ((lm.lossAndUpdate t1 p1).2.lossAndUpdate t2 p2).2.compute =
      (lm.lossAndUpdate (t1 ++ t2) (p1 ++ p2)).2.compute ∧
    (((LossesAndMetrics.mk 0 0 0).lossAndUpdate
        [0, 0, 0, 0] [1, 1, 1, 1]).2.lossAndUpdate
        [0, 0, 0, 0] [2, 2, 2, 2]).2.compute.loss = 3 / 2 ∧
    ((LossesAndMetrics.mk 0 0 0).lossAndUpdate
        ([0, 0, 0, 0] ++ [0, 0, 0, 0])
        ([1, 1, 1, 1] ++ [2, 2, 2, 2])).2.compute.loss = 3 / 2 := by
  refine ⟨?_, ?_, ?_⟩
  · rw [lossAndUpdate_append lm t1 p1 t2 p2 h]
  · simp [LossesAndMetrics.lossAndUpdate, LossesAndMetrics.compute,
      exampleLoss]
    norm_num
  · simp [LossesAndMetrics.lossAndUpdate, LossesAndMetrics.compute,
      exampleLoss]
    norm_num

/-- Witness for C3 at concrete batches. -/
theorem c3_accumulation_partition_invariant_witness :
    (((LossesAndMetrics.mk 0 0 0).lossAndUpdate [0, 0] [1, 1]).2.lossAndUpdate
        [0] [3]).2.compute =
      ((LossesAndMetrics.mk 0 0 0).lossAndUpdate ([0, 0] ++ [0])
        ([1, 1] ++ [3])).2.compute ∧
    (((LossesAndMetrics.mk 0 0 0).lossAndUpdate
        [0, 0, 0, 0] [1, 1, 1, 1]).2.lossAndUpdate
        [0, 0, 0, 0] [2, 2, 2, 2]).2.compute.loss = 3 / 2 ∧
    ((LossesAndMetrics.mk 0 0 0).lossAndUpdate
        ([0, 0, 0, 0] ++ [0, 0, 0, 0])
        ([1, 1, 1, 1] ++ [2, 2, 2, 2])).2.compute.loss = 3 / 2 :=
  c3_accumulation_partition_invariant (LossesAndMetrics.mk 0 0 0)
    [0, 0] [1, 1] [0] [3] rfl

/-- C4: after reset with no update since, compute returns the documented
sentinel (0) instead of dividing by the zero example count. -/
theorem c4_compute_after_reset (lm : LossesAndMetrics) :
    (lm.reset).compute = { loss := 0, accuracy := 0 } :=
  rfl

/-- Witness for C4 at a concrete accumulator state. -/
theorem c4_compute_after_reset_witness :
    ((⟨5, 7, 3⟩ : LossesAndMetrics).reset).compute =
      { loss := 0, accuracy := 0 } :=
  c4_compute_after_reset ⟨5, 7, 3⟩

/-- C5: a Module containing a layer that needs randomness (Dropout) with
its training flag true fails with StateError when applied with an absent
key: the typed error is returned, never coerced. -/
theorem c5_missing_key_state_error (M : Module) (x : List ℚ)
    (hn : M.needsKey = true) :
    M.apply none x = .error .stateError := by
  cases h : M.apply none x with
  | ok res => exact absurd h (Module.applyGo_needsKey M hn x res)
  | error e =>
    rw [Module.applyGo_error_state M none x e h]

/-- Witness for C5 at the Dropout-bearing Module `wDrop`. -/
theorem c5_missing_key_state_error_witness :
    wDrop.apply none [1] = .error .stateError :=
  c5_missing_key_state_error wDrop [1]
    (by simp [wDrop, Module.needsKey, Subs.needsKey])

/-- C6: after Optimizer.init(params), update with a grads tree whose shape
differs from the params tree used at init (for instance omitting a leaf)
fails with StructureError. -/
theorem c6_optimizer_grads_shape_error (o : Optimizer)
    (params grads : Module) (h : grads.treedef ≠ params.treedef) :
    (o.init params).update grads params = .error .structureError := by
  show (if grads.treedef = params.treedef then _ else _) = _
  rw [if_neg h]

/-- Witness for C6: grads omitting the leaf "w1" present in params. -/
theorem c6_optimizer_grads_shape_error_witness :
    (Optimizer.init ⟨1 / 10, none, 0⟩
        (.mk true true false
          [⟨"w0", .parameter, some 1⟩, ⟨"w1", .parameter, some 2⟩] .nil)).update
      (.mk true true false [⟨"w0", .parameter, some 1⟩] .nil)
      (.mk true true false
        [⟨"w0", .parameter, some 1⟩, ⟨"w1", .parameter, some 2⟩] .nil) =
      .error .structureError :=
  c6_optimizer_grads_shape_error ⟨1 / 10, none, 0⟩ _ _
    (by simp [Module.treedef, Subs.treedef, Leaf.toDef])

/-- C7: a training or test step is atomic: it either completes, the driver
rebinding the fully updated trees, or fails with a typed error and the
caller-visible state is exactly the original. -/
theorem c7_step_atomicity (s : TrainState) (key : Option ℕ) (x y : List ℚ) :
    ((∃ m o l, train_step key s.model s.opt s.lm x y = .ok (m, o, l) ∧
        runTrainStep s key x y = ⟨m, o, l⟩) ∨
     (∃ e, train_step key s.model s.opt s.lm x y = .error e ∧
        runTrainStep s key x y = s)) ∧
    ((∃ l, test_step s.model s.lm x y = .ok l ∧
        runTestStep s x y = ⟨s.model, s.opt, l⟩) ∨
     (∃ e, test_step s.model s.lm x y = .error e ∧
        runTestStep s x y = s)) := by
  constructor
  · cases h : train_step key s.model s.opt s.lm x y with
    | ok r =>
      exact Or.inl ⟨r.1, r.2.1, r.2.2, rfl, by simp [runTrainStep, h]⟩
    | error e =>
      exact Or.inr ⟨e, rfl, by simp [runTrainStep, h]⟩
  · cases h : test_step s.model s.lm x y with
    | ok l =>
      exact Or.inl ⟨l, rfl, by simp [runTestStep, h]⟩
    | error e =>
      exact Or.inr ⟨e, rfl, by simp [runTestStep, h]⟩

/-- Witness for C7 at a concrete training state. -/
theorem c7_step_atomicity_witness :
    ((∃ m o l, train_step (some 1) (TrainState.mk wM ⟨1 / 10, none, 0⟩ ⟨0, 0, 0⟩).model
        (TrainState.mk wM ⟨1 / 10, none, 0⟩ ⟨0, 0, 0⟩).opt
        (TrainState.mk wM ⟨1 / 10, none, 0⟩ ⟨0, 0, 0⟩).lm [1] [2] = .ok (m, o, l) ∧
        runTrainStep (TrainState.mk wM ⟨1 / 10, none, 0⟩ ⟨0, 0, 0⟩) (some 1) [1] [2] = ⟨m, o, l⟩) ∨
     (∃ e, train_step (some 1) (TrainState.mk wM ⟨1 / 10, none, 0⟩ ⟨0, 0, 0⟩).model
        (TrainState.mk wM ⟨1 / 10, none, 0⟩ ⟨0, 0, 0⟩).opt
        (TrainState.mk wM ⟨1 / 10, none, 0⟩ ⟨0, 0, 0⟩).lm [1] [2] = .error e ∧
        runTrainStep (TrainState.mk wM ⟨1 / 10, none, 0⟩ ⟨0, 0, 0⟩) (some 1) [1] [2] =
          TrainState.mk wM ⟨1 / 10, none, 0⟩ ⟨0, 0, 0⟩)) ∧
    ((∃ l, test_step (TrainState.mk wM ⟨1 / 10, none, 0⟩ ⟨0, 0, 0⟩).model
        (TrainState.mk wM ⟨1 / 10, none, 0⟩ ⟨0, 0, 0⟩).lm [1] [2] = .ok l ∧
        runTestStep (TrainState.mk wM ⟨1 / 10, none, 0⟩ ⟨0, 0, 0⟩) [1] [2] =
          ⟨(TrainState.mk wM ⟨1 / 10, none, 0⟩ ⟨0, 0, 0⟩).model,
           (TrainState.mk wM ⟨1 / 10, none, 0⟩ ⟨0, 0, 0⟩).opt, l⟩) ∨
     (∃ e, test_step (TrainState.mk wM ⟨1 / 10, none, 0⟩ ⟨0, 0, 0⟩).model
        (TrainState.mk wM ⟨1 / 10, none, 0⟩ ⟨0, 0, 0⟩).lm [1] [2] = .error e ∧
        runTestStep (TrainState.mk wM ⟨1 / 10, none, 0⟩ ⟨0, 0, 0⟩) [1] [2] =
          TrainState.mk wM ⟨1 / 10, none, 0⟩ ⟨0, 0, 0⟩)) :=
  c7_step_atomicity (TrainState.mk wM ⟨1 / 10, none, 0⟩ ⟨0, 0, 0⟩) (some 1) [1] [2]

/-- C8: KeySeq.split(3) applied twice in sequence from a seed yields two
different key triples (the state advances), while split(3) on a freshly
reconstructed KeySeq with the same seed reproduces exactly the first
triple (derivation is a deterministic function of the current key). -/
theorem c8_keyseq_split_determinism (seed : ℕ) :
    (((KeySeq.mk seed).split 3).2.split 3).1 ≠ ((KeySeq.mk seed).split 3).1 ∧
    ∀ ks : KeySeq, ks.key = seed →
      (ks.split 3).1 = ((KeySeq.mk seed).split 3).1 := by
  have h3 : List.range 3 = [0, 1, 2] := rfl
  constructor
  · simp only [KeySeq.split, h3, List.map_cons, List.map_nil, deriveKey]
    intro hEq
    injection hEq with h1 _
    omega
  · intro ks hk
    simp only [KeySeq.split, hk]

/-- Witness for C8 at seed 42. -/
theorem c8_keyseq_split_determinism_witness :
    (((KeySeq.mk 42).split 3).2.split 3).1 ≠ ((KeySeq.mk 42).split 3).1 ∧
    ∀ ks : KeySeq, ks.key = 42 →
      (ks.split 3).1 = ((KeySeq.mk 42).split 3).1 :=
  c8_keyseq_split_determinism 42

/-- C9: init is deterministic given the seed: re-initializing the already
initialized result with the same seed and sample input yields leaf values
identical to a single init. -/
theorem c9_init_deterministic (M : Module) (seed : ℕ) (x : List ℚ) :
    (M.init seed x).init seed x = M.init seed x :=
  Module.init_idem seed x M

/-- Witness for C9 at a concrete uninitialized Module. -/
theorem c9_init_deterministic_witness :
    ((Module.mk true false false [⟨"w", .parameter, none⟩] .nil).init 7
        [1, 2]).init 7 [1, 2] =
      (Module.mk true false false [⟨"w", .parameter, none⟩] .nil).init 7
        [1, 2] :=
  c9_init_deterministic (.mk true false false [⟨"w", .parameter, none⟩] .nil)
    7 [1, 2]

/-- C10: on a fully initialized Module, after eval() sets the training flag
false everywhere, apply with no key succeeds: the StateError branch for
missing randomness is unreachable when training is false. -/
theorem c10_eval_requires_no_key (M : Module) (x : List ℚ)
    (hI : M.allInit = true) :
    ∃ res, M.evalMode.apply none x = .ok res :=
  Module.applyGo_evalMode_ok M hI x

/-- Witness for C10 at the Dropout-bearing Module `wDrop`. -/
theorem c10_eval_requires_no_key_witness :
    ∃ res, wDrop.evalMode.apply none [1] = .ok res :=
  c10_eval_requires_no_key wDrop [1]
    (by simp [wDrop, Module.allInit, Subs.allInit])

end Treex
